import Mathlib

/-!
Verification of the alert-driven bracket order lifecycle manager.

Shallow embedding of the webhook trading service: the deduplication guard
(src/main.py), the bracket planner and pre-trade verification
(src/main_fixed.py, src/enhanced_main.py), the order-monitoring loops
(src/main_fixed.py, src/main.py) and the broker API adapter retry logic
(src/tradovate_api.py).

Modelling conventions:
* Prices parsed with float(...) are modelled as rationals; the properties
  verified here use them only for storage and equality, never for rounding
  arithmetic.
* The SHA-256 digest of json.dumps over the essential-field record is
  modelled by the record of essential fields itself: two alerts receive the
  same digest exactly when the five extracted fields coincide (SHA-256 is
  treated as injective on the canonical serialisations).
* Wall-clock instants are rationals measured in seconds; datetime
  subtraction in the code becomes rational subtraction.
* HTTP interactions are modelled by explicit response values fed to the
  embedded functions; broker order statuses are the literal status strings
  the code compares against.
-/

/-- Parsed alert payload as built by parse_alert_to_tradovate_json in
src/main.py: the five essential trading fields (values absent from the
payload are none), plus the non-essential data a payload may carry — the
config_id injected by the webhook from the query string and any further
KEY=VALUE lines. -/
structure AlertData where
  symbol : Option String
  action : Option String
  price : Option ℚ
  t1 : Option ℚ
  stop : Option ℚ
  config_id : Option String
  rest : List (String × String)
deriving DecidableEq

/-- Digest of an alert as computed by hash_alert in src/main.py lines
191-202: sha256 of json.dumps (sort_keys) of the record holding exactly the
fields symbol, action, PRICE, T1 and STOP, modelled as that record itself. -/
structure AlertFingerprint where
  symbol : Option String
  action : Option String
  price : Option ℚ
  t1 : Option ℚ
  stop : Option ℚ
deriving DecidableEq

/-- hash_alert of src/main.py lines 191-202: extracts exactly the five
essential trading fields of the payload. -/
def hash_alert (data : AlertData) : AlertFingerprint :=
  { symbol := data.symbol, action := data.action, price := data.price,
    t1 := data.t1, stop := data.stop }

/-- Computable model of the Python str.lower() used on actions and order
statuses (ASCII char-wise lowering). -/
def strToLower (s : String) : String := String.mk (s.data.map Char.toLower)

/-- One value of the module-level last_alert dict of src/main.py line 22:
direction (action lower-cased), timestamp of admission, and alert hash. -/
structure LastAlertRecord where
  direction : String
  timestamp : ℚ
  alert_hash : AlertFingerprint
deriving DecidableEq

/-- The last_alert dict, keyed by instrument symbol; an association list in
which insertion at the head shadows older entries. -/
abbrev LastAlertTable := List (String × LastAlertRecord)

/-- DUPLICATE_THRESHOLD_SECONDS of src/main.py line 25. -/
def DUPLICATE_THRESHOLD_SECONDS : ℚ := 30

/-- is_duplicate_alert of src/main.py lines 205-242. Returns the decision
together with the updated last_alert table: the code overwrites
last_alert[symbol] with the incoming direction, timestamp and hash before
returning False, and returns True early — leaving the table untouched —
exactly when the stored record for the symbol has the same hash and is
younger than the 30-second threshold. -/
def is_duplicate_alert (symbol action : String) (data : AlertData)
    (table : LastAlertTable) (now : ℚ) : Bool × LastAlertTable :=
  let alertHash := hash_alert data
  match table.lookup symbol with
  | some rec =>
      if rec.alert_hash = alertHash ∧
          now - rec.timestamp < DUPLICATE_THRESHOLD_SECONDS then
        (true, table)
      else
        (false, (symbol, ⟨strToLower action, now, alertHash⟩) :: table)
  | none => (false, (symbol, ⟨strToLower action, now, alertHash⟩) :: table)

/-- C1: the deduplication guard suppresses an incoming alert iff the stored
record for the same instrument carries an identical fingerprint and is
younger than the 30-second window; an admitted alert overwrites the record
for its instrument with its own fingerprint and timestamp; and any second
alert for the instrument that differs from an admitted first alert in
direction or in any price field is itself admitted, no matter how soon it
follows. -/
theorem dedup_guard_characterization
    (symbol action : String) (data : AlertData) (table : LastAlertTable) (now : ℚ) :
    ((is_duplicate_alert symbol action data table now).1 = true ↔
      ∃ rec, table.lookup symbol = some rec ∧ rec.alert_hash = hash_alert data ∧
        now - rec.timestamp < DUPLICATE_THRESHOLD_SECONDS) ∧
    ((is_duplicate_alert symbol action data table now).1 = false →
      ((is_duplicate_alert symbol action data table now).2).lookup symbol =
        some ⟨strToLower action, now, hash_alert data⟩) ∧
    (∀ (action2 : String) (data2 : AlertData) (now2 : ℚ),
      (is_duplicate_alert symbol action data table now).1 = false →
      (data2.action ≠ data.action ∨ data2.price ≠ data.price ∨
        data2.t1 ≠ data.t1 ∨ data2.stop ≠ data.stop) →
      (is_duplicate_alert symbol action2 data2
        ((is_duplicate_alert symbol action data table now).2) now2).1 = false) := by
  have htab : (is_duplicate_alert symbol action data table now).1 = false →
      (is_duplicate_alert symbol action data table now).2 =
        (symbol, ⟨strToLower action, now, hash_alert data⟩) :: table := by
    intro hfalse
    unfold is_duplicate_alert at hfalse ⊢
    cases h : table.lookup symbol with
    | none => simp [h]
    | some rec =>
      simp only [h] at hfalse ⊢
      split at hfalse
      · exact absurd hfalse (by simp)
      · rename_i hc
        rw [if_neg hc]
  refine ⟨?_, ?_, ?_⟩
  · unfold is_duplicate_alert
    cases h : table.lookup symbol with
    | none => simp [h]
    | some rec =>
      simp only [h]
      split
      · rename_i hc
        exact ⟨fun _ => ⟨rec, rfl, hc.1, hc.2⟩, fun _ => rfl⟩
      · rename_i hc
        refine ⟨fun hcontr => absurd hcontr (by simp), ?_⟩
        rintro ⟨rec2, hrec2, hh, ht⟩
        cases Option.some.inj hrec2
        exact absurd ⟨hh, ht⟩ hc
  · intro hfalse
    rw [htab hfalse]
    simp [List.lookup]
  · intro action2 data2 now2 hfalse hdiff
    have hhash : hash_alert data ≠ hash_alert data2 := by
      intro heq
      rcases hdiff with h | h | h | h
      · exact h (congrArg AlertFingerprint.action heq).symm
      · exact h (congrArg AlertFingerprint.price heq).symm
      · exact h (congrArg AlertFingerprint.t1 heq).symm
      · exact h (congrArg AlertFingerprint.stop heq).symm
    rw [htab hfalse]
    unfold is_duplicate_alert
    have hl : List.lookup symbol
        ((symbol, (⟨strToLower action, now, hash_alert data⟩ : LastAlertRecord)) :: table) =
        some ⟨strToLower action, now, hash_alert data⟩ := by
      simp [List.lookup]
    simp only [hl]
    split
    · rename_i hcond
      exact absurd hcond.1 hhash
    · rfl

/-- Sample alert: long NQ breakout signal. -/
def alertLongA : AlertData :=
  ⟨some "NQM5", some "Buy", some 100, some 110, some 95, none, []⟩

/-- Sample alert: short NQ signal at the same prices (direction change). -/
def alertShortA : AlertData :=
  ⟨some "NQM5", some "Sell", some 100, some 110, some 95, none, []⟩

/-- Witness for C1: admitting the long alert at time 0 and then sending the
opposite-direction alert one second later admits both. -/
theorem dedup_guard_witness :
    (is_duplicate_alert "NQM5" "Buy" alertLongA [] 0).1 = false ∧
    (is_duplicate_alert "NQM5" "Sell" alertShortA
      ((is_duplicate_alert "NQM5" "Buy" alertLongA [] 0).2) 1).1 = false :=
  ⟨rfl, (dedup_guard_characterization "NQM5" "Buy" alertLongA [] 0).2.2
    "Sell" alertShortA 1 rfl (Or.inl (by decide))⟩

/-- C10: hash_alert reads only the five essential fields, so two payloads
agreeing on symbol, action, PRICE, T1 and STOP receive the same digest and
the same deduplication decision and table update in every tracking state,
whatever their other fields (config_id, extra KEY=VALUE lines). -/
theorem hash_alert_depends_only_on_essential_fields
    (d1 d2 : AlertData)
    (hs : d1.symbol = d2.symbol) (ha : d1.action = d2.action)
    (hp : d1.price = d2.price) (ht : d1.t1 = d2.t1) (hst : d1.stop = d2.stop) :
    hash_alert d1 = hash_alert d2 ∧
    ∀ (symbol action : String) (table : LastAlertTable) (now : ℚ),
      is_duplicate_alert symbol action d1 table now =
        is_duplicate_alert symbol action d2 table now := by
  have hh : hash_alert d1 = hash_alert d2 := by
    simp [hash_alert, hs, ha, hp, ht, hst]
  refine ⟨hh, fun symbol action table now => ?_⟩
  unfold is_duplicate_alert
  rw [hh]

/-- Sample alert: same five essential fields as alertLongA but a different
config_id and an extra parsed line. -/
def alertLongB : AlertData :=
  ⟨some "NQM5", some "Buy", some 100, some 110, some 95, some "cfg42", [("ORDERS", "2")]⟩

/-- Sample alert: alertLongA tagged with another config_id. -/
def alertLongC : AlertData :=
  ⟨some "NQM5", some "Buy", some 100, some 110, some 95, some "cfg7", []⟩

/-- Witness for C10: payloads differing only in config_id and extra lines
hash identically and are judged identically. -/
theorem hash_alert_witness :
    hash_alert alertLongB = hash_alert alertLongC ∧
    is_duplicate_alert "NQM5" "Buy" alertLongB [] 0 =
      is_duplicate_alert "NQM5" "Buy" alertLongC [] 0 :=
  ⟨(hash_alert_depends_only_on_essential_fields alertLongB alertLongC
      rfl rfl rfl rfl rfl).1,
   (hash_alert_depends_only_on_essential_fields alertLongB alertLongC
      rfl rfl rfl rfl rfl).2 "NQM5" "Buy" [] 0⟩

/-- Direction flip used for exit legs throughout src/main_fixed.py and
src/enhanced_main.py: Sell if the alert action is buy, else Buy. -/
def oppositeAction (action : String) : String :=
  if strToLower action = "buy" then "Sell" else "Buy"

/-- One entry of the order_plan list built by the webhook handler of
src/main_fixed.py lines 311-341. -/
structure PlannedOrder where
  label : String
  action : String
  orderType : String
  price : Option ℚ
  stopPrice : Option ℚ
  qty : ℕ
deriving DecidableEq

/-- The order_plan built by src/main_fixed.py lines 311-341 (identical in
src/enhanced_main.py lines 360-391): a TP1 limit order at T1 when T1 is
present, then an ENTRY stop-trigger order at PRICE when PRICE is present;
each condition only logs a warning when its field is absent. -/
def buildOrderPlan (action : String) (data : AlertData) : List PlannedOrder :=
  (match data.t1 with
    | some tp =>
        [{ label := "TP1", action := oppositeAction action, orderType := "Limit",
           price := some tp, stopPrice := none, qty := 1 }]
    | none => []) ++
  (match data.price with
    | some entry =>
        [{ label := "ENTRY", action := action, orderType := "Stop",
           price := none, stopPrice := some entry, qty := 1 }]
    | none => [])

/-- The stop_order_data dict prepared (but not submitted) by
src/main_fixed.py lines 342-356: an opposite-direction stop-trigger at the
STOP price, kept aside for placement after the ENTRY fill. The accountId
and isAutomated constants are omitted. -/
structure StopOrderData where
  symbol : String
  action : String
  orderQty : ℕ
  orderType : String
  stopPrice : ℚ
  timeInForce : String
deriving DecidableEq

/-- Builds the pending stop specification exactly when STOP is present in
the alert data (src/main_fixed.py lines 343-353). -/
def buildStopOrderData (symbol action : String) (data : AlertData) :
    Option StopOrderData :=
  match data.stop with
  | some sp =>
      some { symbol := symbol, action := oppositeAction action, orderQty := 1,
             orderType := "Stop", stopPrice := sp, timeInForce := "GTC" }
  | none => none

/-- Possible results of the planning phase of the webhook handler. The
incompleteSignal alternative expresses the failure mode the specification
describes; the embedded handler below shows which alternative the code
actually takes. -/
inductive PlanOutcome where
  | success (plan : List PlannedOrder) (stopData : Option StopOrderData)
  | incompleteSignal
deriving DecidableEq

/-- Planning phase of the webhook handler of src/main_fixed.py lines
311-358: the code has no failure branch for a missing PRICE/T1/STOP field —
it logs a warning, keeps whatever legs it could build, and proceeds to
execute the plan. -/
def webhookPlanPhase (symbol action : String) (data : AlertData) : PlanOutcome :=
  PlanOutcome.success (buildOrderPlan action data) (buildStopOrderData symbol action data)

/-- A broker order as listed by GET order/list: broker id, instrument
symbol, lifecycle status string, plus a tag standing for all the remaining
fields of the JSON object (e.g. which bracket the order belongs to), which
the embedded functions never read. -/
structure Order where
  id : ℕ
  symbol : String
  status : String
  bracketTag : ℕ
deriving DecidableEq

/-- A broker position as listed by GET position/list. -/
structure Position where
  symbol : String
  netPos : ℤ
deriving DecidableEq

/-- Orders counted as open by the verification and wait loops: status
Working or Accepted (src/main_fixed.py lines 70, 306). -/
def openOrdersFor (symbol : String) (orders : List Order) : List Order :=
  orders.filter fun o =>
    o.symbol == symbol && (o.status == "Working" || o.status == "Accepted")

/-- Positions with non-zero net exposure for the symbol
(src/main_fixed.py line 296: abs(netPos) > 0). -/
def notFlatFor (symbol : String) (positions : List Position) : List Position :=
  positions.filter fun p => p.symbol == symbol && decide (0 < |p.netPos|)

/-- Outcome of the post-reconcile verification of src/main_fixed.py lines
290-309. -/
inductive VerifyOutcome where
  | proceed
  | skippedNotFlat
  | skippedOpenOrders
deriving DecidableEq

/-- Post-reconcile verification of src/main_fixed.py lines 290-309: a fresh
position listing must show a flat book for the symbol and a fresh order
listing must show no Working/Accepted order for the symbol, otherwise the
handler returns a skipped status without placing anything. -/
def postReconcileVerify (symbol : String) (positions : List Position)
    (orders : List Order) : VerifyOutcome :=
  if notFlatFor symbol positions ≠ [] then VerifyOutcome.skippedNotFlat
  else if openOrdersFor symbol orders ≠ [] then VerifyOutcome.skippedOpenOrders
  else VerifyOutcome.proceed

/-- The webhook handler of src/main_fixed.py after reconciliation: the
order plan is built and executed only on the proceed outcome of the
verification; on either skipped outcome the handler returns without
submitting any order (lines 290-409). -/
def webhookAfterReconcile (symbol action : String) (data : AlertData)
    (positions : List Position) (orders : List Order) :
    VerifyOutcome × List PlannedOrder :=
  match postReconcileVerify symbol positions orders with
  | VerifyOutcome.proceed => (VerifyOutcome.proceed, buildOrderPlan action data)
  | r => (r, [])

/-- wait_until_no_open_orders of src/enhanced_main.py lines 78-96 (same
code in src/main_fixed.py lines 58-76): polls the order listing every half
second; returns once a poll shows no open order for the symbol, or returns
with only a warning once the 10-second budget — modelled by the length of
the poll trace — is exhausted. True means the wait saw the book clear;
false means it timed out. -/
def wait_until_no_open_orders (symbol : String) : List (List Order) → Bool
  | [] => false
  | os :: rest =>
      if openOrdersFor symbol os = [] then true
      else wait_until_no_open_orders symbol rest

/-- Reconcile-then-place region of the webhook handler of
src/enhanced_main.py lines 339-465: after flatten_position /
cancel_all_orders / wait_until_no_open_orders, the handler proceeds to
build and execute the order plan unconditionally — there is no re-check of
the position listing and no skip branch on wait timeout. Returns the wait
result together with the orders the handler submits. -/
def enhancedWebhookReconcileRegion (symbol action : String) (data : AlertData)
    (waitPolls : List (List Order)) : Bool × List PlannedOrder :=
  (wait_until_no_open_orders symbol waitPolls, buildOrderPlan action data)

/-- The order_tracking dict of src/main_fixed.py lines 366-370: broker ids
for the ENTRY, TP1 and STOP labels (None until known), iterated in
insertion order ENTRY, TP1, STOP. -/
structure Tracking where
  entry : Option ℕ
  tp1 : Option ℕ
  stop : Option ℕ
deriving DecidableEq

/-- Loop-carried state of monitor_all_orders in src/main_fixed.py: the
entry_filled flag plus the mutable order_tracking dict. -/
structure MonState where
  entryFilled : Bool
  tracking : Tracking
deriving DecidableEq

/-- The stop_order_data dict consumed by monitor_all_orders of src/main.py:
direction, instrument, size, the stop trigger price and the T1 take-profit
price used for the OSO bracket payload (each price may be absent from the
dict). -/
structure StopDataMain where
  action : String
  symbol : String
  orderQty : ℕ
  stopPrice : Option ℚ
  t1 : Option ℚ
deriving DecidableEq

/-- Broker-visible side effects a monitor iteration can issue: placing the
held stop order (src/main_fixed.py lines 158-186), placing the OSO
stop-plus-target bracket (src/main.py lines 330-366), or cancelling a
resting order by id. -/
inductive Effect where
  | placeStop (d : StopOrderData)
  | placeOSO (d : StopDataMain)
  | cancel (oid : ℕ)
deriving DecidableEq

/-- Reasons a monitor loop returns. -/
inductive ExitReason where
  | tpFilledExit
  | stopFilledExit
  | noActive
  | timedOut
deriving DecidableEq

/-- Result of one monitor iteration: either the loop returns, or it sleeps
and continues with an updated state. -/
inductive TickResult where
  | exit (r : ExitReason)
  | cont (s : MonState)
deriving DecidableEq

/-- Truthiness of an order id taken from the tracking dict, as tested by
the code with a bare if: None and 0 are falsy. -/
def truthyId : Option ℕ → Bool
  | some n => n != 0
  | none => false

/-- Status strings the loops treat as an active resting order. -/
def statusWorking (st : Option String) : Bool :=
  st == some "Working" || st == some "Accepted"

/-- Outcome of processing the ENTRY item of the tracking dict in one
iteration of monitor_all_orders (src/main_fixed.py lines 153-186): the
updated entry_filled flag, the possibly rewritten STOP tracking slot, the
stop placement attempt, and whether ENTRY counted as active. -/
structure EntryPhase where
  entryFilled : Bool
  stopId : Option ℕ
  effects : List Effect
  activeEntry : Bool
deriving DecidableEq

/-- ENTRY item of the per-iteration for-loop of monitor_all_orders in
src/main_fixed.py. On the first observed ENTRY fill with stop data at hand
the code attempts the stop placement; placeResp is the write the attempt
performs on the STOP slot — some r when an attempt returned a result whose
id field is r, none when every attempt raised (the slot is left as it was). -/
def entryPhaseFixed (stopData : Option StopOrderData) (s : MonState)
    (statusOf : ℕ → Option String) (placeResp : Option (Option ℕ)) : EntryPhase :=
  match s.tracking.entry with
  | none => ⟨s.entryFilled, s.tracking.stop, [], false⟩
  | some eid =>
      if statusOf eid == some "Filled" then
        if s.entryFilled then ⟨s.entryFilled, s.tracking.stop, [], false⟩
        else
          match stopData with
          | some d =>
              ⟨true, (match placeResp with | some r => r | none => s.tracking.stop),
                [Effect.placeStop d], false⟩
          | none => ⟨true, s.tracking.stop, [], false⟩
      else if statusWorking (statusOf eid) then ⟨s.entryFilled, s.tracking.stop, [], true⟩
      else ⟨s.entryFilled, s.tracking.stop, [], false⟩

/-- End of a monitor iteration in src/main_fixed.py lines 209-214: return
when no tracked order is still active, otherwise sleep and continue with
the updated state. -/
def monitorEndFixed (s : MonState) (ep : EntryPhase) (activeTp activeStop : Bool) :
    List Effect × TickResult :=
  if ep.activeEntry || activeTp || activeStop then
    (ep.effects,
     TickResult.cont ⟨ep.entryFilled, ⟨s.tracking.entry, s.tracking.tp1, ep.stopId⟩⟩)
  else (ep.effects, TickResult.exit ExitReason.noActive)

/-- STOP item of the per-iteration for-loop of monitor_all_orders in
src/main_fixed.py lines 196-202: on a STOP fill after the entry fill,
cancel TP1 when its id is truthy and return. The STOP slot read here is the
one current at this point of the iteration — including an id written by
the ENTRY item moments earlier (Python dict mutation during iteration). -/
def monitorStopPhaseFixed (s : MonState) (statusOf : ℕ → Option String)
    (ep : EntryPhase) (activeTp : Bool) : List Effect × TickResult :=
  match ep.stopId with
  | some sid =>
      if statusOf sid == some "Filled" then
        if ep.entryFilled then
          (ep.effects ++
            (if truthyId s.tracking.tp1 then [Effect.cancel (s.tracking.tp1.getD 0)] else []),
           TickResult.exit ExitReason.stopFilledExit)
        else monitorEndFixed s ep activeTp false
      else monitorEndFixed s ep activeTp (statusWorking (statusOf sid))
  | none => monitorEndFixed s ep activeTp false

/-- TP1 item of the per-iteration for-loop of monitor_all_orders in
src/main_fixed.py lines 188-194, continuing with the ENTRY item already
processed (argument ep): on a TP1 fill after the entry fill, cancel the
currently tracked STOP when its id is truthy and return. -/
def monitorTickFixedAux (s : MonState) (statusOf : ℕ → Option String)
    (ep : EntryPhase) : List Effect × TickResult :=
  match s.tracking.tp1 with
  | some tid =>
      if statusOf tid == some "Filled" then
        if ep.entryFilled then
          (ep.effects ++
            (if truthyId ep.stopId then [Effect.cancel (ep.stopId.getD 0)] else []),
           TickResult.exit ExitReason.tpFilledExit)
        else monitorStopPhaseFixed s statusOf ep false
      else monitorStopPhaseFixed s statusOf ep (statusWorking (statusOf tid))
  | none => monitorStopPhaseFixed s statusOf ep false

/-- One full iteration of the while-loop of monitor_all_orders in
src/main_fixed.py lines 134-218, processing the tracked items in insertion
order ENTRY, TP1, STOP. -/
def monitorTickFixed (stopData : Option StopOrderData) (s : MonState)
    (statusOf : ℕ → Option String) (placeResp : Option (Option ℕ)) :
    List Effect × TickResult :=
  monitorTickFixedAux s statusOf (entryPhaseFixed stopData s statusOf placeResp)

/-- Environment of one monitor iteration: the broker answers to the order
status polls, and the behaviour of a stop placement attempt should one be
made this iteration. -/
structure TickInput where
  statusOf : ℕ → Option String
  placeResp : Option (Option ℕ)

/-- Result of running the monitor loop of src/main_fixed.py against a
finite trace of broker answers: either it returned with one of the exit
reasons, or the trace ran out while it was still polling. -/
inductive RunResult where
  | exited (r : ExitReason) (effects : List Effect)
  | outOfTicks (s : MonState) (effects : List Effect)
deriving DecidableEq

/-- The while-loop of monitor_all_orders in src/main_fixed.py over a finite
trace of broker answers, one iteration per trace element. -/
def monitorRunFixed (stopData : Option StopOrderData) :
    MonState → List TickInput → RunResult
  | s, [] => RunResult.outOfTicks s []
  | s, t :: ts =>
      match monitorTickFixed stopData s t.statusOf t.placeResp with
      | (effs, TickResult.exit r) => RunResult.exited r effs
      | (effs, TickResult.cont s2) =>
          match monitorRunFixed stopData s2 ts with
          | RunResult.exited r effs2 => RunResult.exited r (effs ++ effs2)
          | RunResult.outOfTicks s3 effs2 => RunResult.outOfTicks s3 (effs ++ effs2)

/-- Broker statuses after the cancellations a monitor iteration issued:
cancelling an order that the snapshot still shows Working or Accepted makes
it Cancelled; cancelling a terminal order (already Filled, for instance)
leaves it unchanged — the broker answers such a cancel with an error the
code only logs. -/
def applyCancels (statusOf : ℕ → Option String) (effects : List Effect) (oid : ℕ) :
    Option String :=
  if Effect.cancel oid ∈ effects ∧ statusWorking (statusOf oid) = true then some "Cancelled"
  else statusOf oid

lemma monitorEndFixed_exit (s : MonState) (ep : EntryPhase) (aT aS : Bool)
    (effs : List Effect) (r : ExitReason)
    (h : monitorEndFixed s ep aT aS = (effs, TickResult.exit r)) :
    r = ExitReason.noActive := by
  unfold monitorEndFixed at h
  split at h
  · simp at h
  · simp at h
    exact h.2.symm

lemma monitorStopPhaseFixed_not_tp_exit (s : MonState) (statusOf : ℕ → Option String)
    (ep : EntryPhase) (aT : Bool) (effs : List Effect)
    (h : monitorStopPhaseFixed s statusOf ep aT = (effs, TickResult.exit ExitReason.tpFilledExit)) :
    False := by
  unfold monitorStopPhaseFixed at h
  split at h
  · split at h
    · split at h
      · simp at h
      · exact ExitReason.noConfusion (monitorEndFixed_exit _ _ _ _ _ _ h)
    · exact ExitReason.noConfusion (monitorEndFixed_exit _ _ _ _ _ _ h)
  · exact ExitReason.noConfusion (monitorEndFixed_exit _ _ _ _ _ _ h)

lemma monitorStopPhaseFixed_stop_exit (s : MonState) (statusOf : ℕ → Option String)
    (ep : EntryPhase) (aT : Bool) (effs : List Effect)
    (h : monitorStopPhaseFixed s statusOf ep aT = (effs, TickResult.exit ExitReason.stopFilledExit)) :
    ∃ sid, ep.stopId = some sid ∧ statusOf sid = some "Filled" ∧ ep.entryFilled = true ∧
      effs = ep.effects ++
        (if truthyId s.tracking.tp1 then [Effect.cancel (s.tracking.tp1.getD 0)] else []) := by
  unfold monitorStopPhaseFixed at h
  split at h
  · rename_i sid hsid
    split at h
    · rename_i hfill
      split at h
      · rename_i hef
        simp only [Prod.mk.injEq] at h
        exact ⟨sid, hsid, by simpa using hfill, hef, h.1.symm⟩
      · exact ExitReason.noConfusion (monitorEndFixed_exit _ _ _ _ _ _ h)
    · exact ExitReason.noConfusion (monitorEndFixed_exit _ _ _ _ _ _ h)
  · exact ExitReason.noConfusion (monitorEndFixed_exit _ _ _ _ _ _ h)

lemma monitorTickFixedAux_tp_exit (s : MonState) (statusOf : ℕ → Option String)
    (ep : EntryPhase) (effs : List Effect)
    (h : monitorTickFixedAux s statusOf ep = (effs, TickResult.exit ExitReason.tpFilledExit)) :
    ∃ tid, s.tracking.tp1 = some tid ∧ statusOf tid = some "Filled" ∧
      ep.entryFilled = true ∧
      effs = ep.effects ++
        (if truthyId ep.stopId then [Effect.cancel (ep.stopId.getD 0)] else []) := by
  unfold monitorTickFixedAux at h
  split at h
  · rename_i tid htid
    split at h
    · rename_i hfill
      split at h
      · rename_i hef
        simp only [Prod.mk.injEq] at h
        exact ⟨tid, htid, by simpa using hfill, hef, h.1.symm⟩
      · exact (monitorStopPhaseFixed_not_tp_exit _ _ _ _ _ h).elim
    · exact (monitorStopPhaseFixed_not_tp_exit _ _ _ _ _ h).elim
  · exact (monitorStopPhaseFixed_not_tp_exit _ _ _ _ _ h).elim

lemma monitorTickFixedAux_stop_exit (s : MonState) (statusOf : ℕ → Option String)
    (ep : EntryPhase) (effs : List Effect)
    (h : monitorTickFixedAux s statusOf ep = (effs, TickResult.exit ExitReason.stopFilledExit)) :
    ∃ sid, ep.stopId = some sid ∧ statusOf sid = some "Filled" ∧ ep.entryFilled = true ∧
      effs = ep.effects ++
        (if truthyId s.tracking.tp1 then [Effect.cancel (s.tracking.tp1.getD 0)] else []) := by
  unfold monitorTickFixedAux at h
  split at h
  · split at h
    · split at h
      · simp at h
      · exact monitorStopPhaseFixed_stop_exit _ _ _ _ _ h
    · exact monitorStopPhaseFixed_stop_exit _ _ _ _ _ h
  · exact monitorStopPhaseFixed_stop_exit _ _ _ _ _ h

lemma entryPhaseFixed_of_filled (stopData : Option StopOrderData) (s : MonState)
    (statusOf : ℕ → Option String) (placeResp : Option (Option ℕ))
    (h : s.entryFilled = true) :
    (entryPhaseFixed stopData s statusOf placeResp).entryFilled = true ∧
    (entryPhaseFixed stopData s statusOf placeResp).stopId = s.tracking.stop ∧
    (entryPhaseFixed stopData s statusOf placeResp).effects = [] := by
  unfold entryPhaseFixed
  split
  · exact ⟨h, rfl, rfl⟩
  · split_ifs <;> simp_all

lemma placeStop_mem_entryPhase (stopData : Option StopOrderData) (s : MonState)
    (statusOf : ℕ → Option String) (placeResp : Option (Option ℕ)) (d : StopOrderData)
    (h : Effect.placeStop d ∈ (entryPhaseFixed stopData s statusOf placeResp).effects) :
    ∃ eid, s.tracking.entry = some eid ∧ statusOf eid = some "Filled" ∧
      s.entryFilled = false := by
  revert h
  unfold entryPhaseFixed
  split
  · intro h
    simp at h
  · rename_i eid he
    split
    · rename_i hfill
      split
      · intro h
        simp at h
      · rename_i hef
        cases stopData with
        | some d2 =>
            intro _
            exact ⟨eid, he, by simpa using hfill, by simpa using hef⟩
        | none =>
            intro h
            simp at h
    · split
      · intro h
        simp at h
      · intro h
        simp at h

lemma tickAux_effects_cases (s : MonState) (statusOf : ℕ → Option String)
    (ep : EntryPhase) (e : Effect)
    (h : e ∈ (monitorTickFixedAux s statusOf ep).1) :
    e ∈ ep.effects ∨ ∃ k, e = Effect.cancel k := by
  have hx : ∀ (l : List Effect) (b : Bool) (k : ℕ),
      e ∈ l ++ (if b then [Effect.cancel k] else []) → e ∈ l ∨ ∃ k2, e = Effect.cancel k2 := by
    intro l b k hmem
    rcases List.mem_append.1 hmem with h2 | h2
    · exact Or.inl h2
    · cases b
      · simp at h2
      · simp at h2
        exact Or.inr ⟨k, h2⟩
  have hx1 : ∀ (l : List Effect) (k : ℕ),
      e ∈ l ++ [Effect.cancel k] → e ∈ l ∨ ∃ k2, e = Effect.cancel k2 := by
    intro l k hmem
    rcases List.mem_append.1 hmem with h2 | h2
    · exact Or.inl h2
    · simp at h2
      exact Or.inr ⟨k, h2⟩
  have hx0 : ∀ l : List Effect, e ∈ l ++ [] → e ∈ l := by
    intro l hmem
    simpa using hmem
  revert h
  unfold monitorTickFixedAux monitorStopPhaseFixed monitorEndFixed
  repeat' split
  all_goals intro h
  all_goals
    first
      | exact Or.inl h
      | exact hx _ _ _ h
      | exact hx1 _ _ h
      | exact Or.inl (hx0 _ h)

/-- C2 (amended): once the entry has filled, a monitor iteration of
src/main_fixed.py that terminates through an exit-leg fill has observed
that leg Filled and has issued a cancellation for the other leg whenever
that leg is tracked under a truthy id (when it is absent from tracking no
cancellation is needed); the other leg then ends Cancelled provided the
same poll still showed it Working or Accepted. When both exit legs fill
inside one polling interval the cancellation hits an already terminal
order and both legs end Filled — see the separate counterexample. -/
theorem monitor_exit_fill_cancels_other_leg
    (stopData : Option StopOrderData) (s : MonState)
    (statusOf : ℕ → Option String) (placeResp : Option (Option ℕ))
    (effs : List Effect) (hEntry : s.entryFilled = true) :
    (monitorTickFixed stopData s statusOf placeResp =
        (effs, TickResult.exit ExitReason.tpFilledExit) →
      (∃ tid, s.tracking.tp1 = some tid ∧ statusOf tid = some "Filled") ∧
      ∀ sid, s.tracking.stop = some sid → sid ≠ 0 →
        Effect.cancel sid ∈ effs ∧
        (statusWorking (statusOf sid) = true →
          applyCancels statusOf effs sid = some "Cancelled")) ∧
    (monitorTickFixed stopData s statusOf placeResp =
        (effs, TickResult.exit ExitReason.stopFilledExit) →
      (∃ sid, s.tracking.stop = some sid ∧ statusOf sid = some "Filled") ∧
      ∀ tid, s.tracking.tp1 = some tid → tid ≠ 0 →
        Effect.cancel tid ∈ effs ∧
        (statusWorking (statusOf tid) = true →
          applyCancels statusOf effs tid = some "Cancelled")) := by
  have hep := entryPhaseFixed_of_filled stopData s statusOf placeResp hEntry
  constructor
  · intro h
    obtain ⟨tid, htid, hfil, _, heffs⟩ :=
      monitorTickFixedAux_tp_exit s statusOf _ effs h
    rw [hep.2.2, hep.2.1] at heffs
    refine ⟨⟨tid, htid, hfil⟩, ?_⟩
    intro sid hsid hsid0
    rw [hsid] at heffs
    have htr : truthyId (some sid) = true := by
      simp [truthyId, hsid0]
    rw [htr] at heffs
    simp at heffs
    have hmem : Effect.cancel sid ∈ effs := by
      rw [heffs]
      exact List.mem_singleton.2 rfl
    refine ⟨hmem, ?_⟩
    intro hwork
    unfold applyCancels
    rw [if_pos ⟨hmem, hwork⟩]
  · intro h
    obtain ⟨sid, hsid, hfil, _, heffs⟩ :=
      monitorTickFixedAux_stop_exit s statusOf _ effs h
    rw [hep.2.1] at hsid
    rw [hep.2.2] at heffs
    refine ⟨⟨sid, hsid, hfil⟩, ?_⟩
    intro tid htid htid0
    rw [htid] at heffs
    have htr : truthyId (some tid) = true := by
      simp [truthyId, htid0]
    rw [htr] at heffs
    simp at heffs
    have hmem : Effect.cancel tid ∈ effs := by
      rw [heffs]
      exact List.mem_singleton.2 rfl
    refine ⟨hmem, ?_⟩
    intro hwork
    unfold applyCancels
    rw [if_pos ⟨hmem, hwork⟩]

/-- Pending stop specification used in the monitor scenarios: protective
sell stop at 95 for a long NQ bracket. -/
def stopDataCex : StopOrderData :=
  { symbol := "NQM5", action := "Sell", orderQty := 1, orderType := "Stop",
    stopPrice := 95, timeInForce := "GTC" }

/-- Monitor start state: ENTRY (id 1) and TP1 (id 2) submitted, STOP held. -/
def monStartCex : MonState := ⟨false, ⟨some 1, some 2, none⟩⟩

/-- First poll: ENTRY fills, TP1 still working; the stop placement
succeeds with broker id 3. -/
def tickCex1 : TickInput :=
  ⟨fun n => if n = 1 then some "Filled" else some "Working", some (some 3)⟩

/-- Second poll: every order — TP1 and STOP included — reports Filled. -/
def tickCex2 : TickInput :=
  ⟨fun _ => some "Filled", none⟩

/-- Counterexample for C2: the entry fills, then both exit legs fill within
one polling interval. The monitor exits DONE via the TP1 branch after
issuing the cancellation of the STOP leg, but that cancellation hits an
already filled order: at termination both TAKE_PROFIT (id 2) and STOP
(id 3) are FILLED. -/
theorem monitor_done_with_both_exit_legs_filled :
    monitorRunFixed (some stopDataCex) monStartCex [tickCex1, tickCex2] =
      RunResult.exited ExitReason.tpFilledExit
        [Effect.placeStop stopDataCex, Effect.cancel 3] ∧
    applyCancels tickCex2.statusOf [Effect.placeStop stopDataCex, Effect.cancel 3] 2 =
      some "Filled" ∧
    applyCancels tickCex2.statusOf [Effect.placeStop stopDataCex, Effect.cancel 3] 3 =
      some "Filled" := by
  refine ⟨?_, ?_, ?_⟩ <;> rfl

/-- Monitor state after the entry fill, with all three legs tracked. -/
def monFilledCex : MonState := ⟨true, ⟨some 1, some 2, some 3⟩⟩

/-- Poll in which TP1 (id 2) is Filled while STOP (id 3) is still Working. -/
def statusTpFillCex : ℕ → Option String :=
  fun n => if n = 2 then some "Filled" else if n = 3 then some "Working" else some "Filled"

/-- Witness for C2: in the TP1-fill iteration the cancellation of the
still-working STOP leg is issued and leaves it Cancelled. -/
theorem monitor_exit_fill_witness :
    Effect.cancel 3 ∈ [Effect.cancel 3] ∧
    applyCancels statusTpFillCex [Effect.cancel 3] 3 = some "Cancelled" := by
  have hc := ((monitor_exit_fill_cancels_other_leg (some stopDataCex) monFilledCex
      statusTpFillCex none [Effect.cancel 3] rfl).1 rfl).2 3 rfl (by decide)
  exact ⟨hc.1, hc.2 rfl⟩

/-- C4: for a signal carrying entry, take-profit and stop prices the
planner of src/main_fixed.py builds an ENTRY stop-trigger order in the
signal direction at PRICE and a TP1 opposite-direction limit order at T1,
both carried in the one submitted order plan, plus a pending
opposite-direction stop-trigger specification at STOP that is not part of
the submitted plan; the monitor attempts the stop placement only in an
iteration that observes the ENTRY order Filled for the first time. -/
theorem bracket_planner_and_held_stop
    (symbol action : String) (data : AlertData) :
    (∀ entry, data.price = some entry →
      ({ label := "ENTRY", action := action, orderType := "Stop", price := none,
         stopPrice := some entry, qty := 1 } : PlannedOrder) ∈ buildOrderPlan action data) ∧
    (∀ tp, data.t1 = some tp →
      ({ label := "TP1", action := oppositeAction action, orderType := "Limit",
         price := some tp, stopPrice := none, qty := 1 } : PlannedOrder) ∈
        buildOrderPlan action data) ∧
    (∀ sp, data.stop = some sp →
      buildStopOrderData symbol action data =
        some { symbol := symbol, action := oppositeAction action, orderQty := 1,
               orderType := "Stop", stopPrice := sp, timeInForce := "GTC" } ∧
      ∀ o ∈ buildOrderPlan action data, o.label ≠ "STOP") ∧
    (∀ (stopData : Option StopOrderData) (s : MonState) (statusOf : ℕ → Option String)
        (placeResp : Option (Option ℕ)) (d : StopOrderData),
      Effect.placeStop d ∈ (monitorTickFixed stopData s statusOf placeResp).1 →
      ∃ eid, s.tracking.entry = some eid ∧ statusOf eid = some "Filled" ∧
        s.entryFilled = false) := by
  refine ⟨?_, ?_, ?_, ?_⟩
  · intro entry hp
    unfold buildOrderPlan
    rw [hp]
    cases data.t1 <;> simp
  · intro tp ht
    unfold buildOrderPlan
    rw [ht]
    cases data.price <;> simp
  · intro sp hs
    constructor
    · unfold buildStopOrderData
      rw [hs]
    · intro o ho
      unfold buildOrderPlan at ho
      rcases List.mem_append.1 ho with h2 | h2
      · cases ht : data.t1 with
        | none =>
            rw [ht] at h2
            simp at h2
        | some tp =>
            rw [ht] at h2
            simp at h2
            rw [h2]
            simp
      · cases hp : data.price with
        | none =>
            rw [hp] at h2
            simp at h2
        | some entry =>
            rw [hp] at h2
            simp at h2
            rw [h2]
            simp
  · intro stopData s statusOf placeResp d hmem
    rcases tickAux_effects_cases s statusOf (entryPhaseFixed stopData s statusOf placeResp)
        (Effect.placeStop d) hmem with h2 | ⟨k, hk⟩
    · exact placeStop_mem_entryPhase stopData s statusOf placeResp d h2
    · exact Effect.noConfusion hk

/-- Witness for C4: for the concrete long signal (entry 100, tp 110,
stop 95) the ENTRY stop-trigger leg is in the submitted plan and the held
stop specification is the opposite-direction stop at 95. -/
theorem bracket_planner_witness :
    ({ label := "ENTRY", action := "Buy", orderType := "Stop", price := none,
       stopPrice := some 100, qty := 1 } : PlannedOrder) ∈ buildOrderPlan "Buy" alertLongA ∧
    buildStopOrderData "NQM5" "Buy" alertLongA =
      some { symbol := "NQM5", action := "Sell", orderQty := 1, orderType := "Stop",
             stopPrice := 95, timeInForce := "GTC" } := by
  have h := bracket_planner_and_held_stop "NQM5" "Buy" alertLongA
  exact ⟨h.1 100 rfl, ((h.2.2.1 95 rfl).1).trans (by rfl)⟩

/-- Alert payload carrying take-profit and stop prices but no entry price. -/
def alertNoPrice : AlertData :=
  ⟨some "NQM5", some "Buy", none, some 110, some 95, none, []⟩

/-- Counterexample for C6: with PRICE absent the planning phase of
src/main_fixed.py does not fail with any error — it succeeds, and the TP1
leg is still built and submitted on its own. -/
theorem missing_entry_price_does_not_fail :
    webhookPlanPhase "NQM5" "Buy" alertNoPrice ≠ PlanOutcome.incompleteSignal ∧
    buildOrderPlan "Buy" alertNoPrice =
      [{ label := "TP1", action := "Sell", orderType := "Limit",
         price := some 110, stopPrice := none, qty := 1 }] := by
  constructor
  · intro h
    exact PlanOutcome.noConfusion h
  · rfl

/-- C6 (amended): a missing PRICE does not make planning fail — the
planning phase always succeeds with whatever legs it could build, and with
PRICE absent the plan simply contains no ENTRY leg (the handler logs a
warning and submits the rest); conversely a missing T1 or a missing STOP
never blocks the ENTRY leg. -/
theorem entry_price_gates_entry_leg_only
    (symbol action : String) (data : AlertData) :
    (data.price = none →
      webhookPlanPhase symbol action data =
        PlanOutcome.success (buildOrderPlan action data)
          (buildStopOrderData symbol action data) ∧
      ∀ o ∈ buildOrderPlan action data, o.label ≠ "ENTRY") ∧
    (∀ entry, data.price = some entry →
      ({ label := "ENTRY", action := action, orderType := "Stop", price := none,
         stopPrice := some entry, qty := 1 } : PlannedOrder) ∈ buildOrderPlan action data) := by
  constructor
  · intro hp
    refine ⟨rfl, ?_⟩
    intro o ho
    unfold buildOrderPlan at ho
    rw [hp] at ho
    cases ht : data.t1 with
    | none =>
        rw [ht] at ho
        simp at ho
    | some tp =>
        rw [ht] at ho
        simp at ho
        rw [ho]
        simp
  · intro entry hp
    unfold buildOrderPlan
    rw [hp]
    cases data.t1 <;> simp

/-- Witness for C6: the degraded plan for the price-less alert has no
ENTRY leg (its only member is the TP1 leg), while the complete alert
yields an ENTRY leg. -/
theorem entry_price_gating_witness :
    ({ label := "TP1", action := "Sell", orderType := "Limit",
       price := some 110, stopPrice := none, qty := 1 } : PlannedOrder).label ≠ "ENTRY" ∧
    ({ label := "ENTRY", action := "Buy", orderType := "Stop", price := none,
       stopPrice := some 100, qty := 1 } : PlannedOrder) ∈ buildOrderPlan "Buy" alertLongA :=
  ⟨((entry_price_gates_entry_leg_only "NQM5" "Buy" alertNoPrice).1 rfl).2
      { label := "TP1", action := "Sell", orderType := "Limit",
        price := some 110, stopPrice := none, qty := 1 } (by decide),
   (entry_price_gates_entry_leg_only "NQM5" "Buy" alertLongA).2 100 rfl⟩

lemma notFlatFor_eq_nil_iff (symbol : String) (positions : List Position) :
    notFlatFor symbol positions = [] ↔
      ∀ p ∈ positions, p.symbol = symbol → p.netPos = 0 := by
  unfold notFlatFor
  rw [List.filter_eq_nil_iff]
  constructor
  · intro h p hp hsym
    have h2 := h p hp
    rw [hsym] at h2
    simpa using h2
  · intro h p hp
    by_cases hsym : p.symbol = symbol
    · simp [hsym, h p hp hsym]
    · simp [hsym]

lemma openOrdersFor_eq_nil_iff (symbol : String) (orders : List Order) :
    openOrdersFor symbol orders = [] ↔
      ∀ o ∈ orders, o.symbol = symbol →
        o.status ≠ "Working" ∧ o.status ≠ "Accepted" := by
  unfold openOrdersFor
  rw [List.filter_eq_nil_iff]
  constructor
  · intro h o ho hsym
    have h2 := h o ho
    rw [hsym] at h2
    simp at h2
    exact h2
  · intro h o ho
    by_cases hsym : o.symbol = symbol
    · have h3 := h o ho hsym
      simp [hsym, h3.1, h3.2]
    · simp [hsym]

/-- C3 (amended): in the webhook of src/main_fixed.py the dichotomy holds:
the handler proceeds iff the fresh post-reconcile listings show a flat
position and no open order for the instrument, and on either skipped
outcome it submits nothing. The webhook of src/enhanced_main.py does not
re-verify after its wait and submits the bracket even when the wait timed
out — see the separate counterexample. -/
theorem reconcile_verify_dichotomy
    (symbol action : String) (data : AlertData)
    (positions : List Position) (orders : List Order) :
    (postReconcileVerify symbol positions orders = VerifyOutcome.proceed ↔
      (∀ p ∈ positions, p.symbol = symbol → p.netPos = 0) ∧
      (∀ o ∈ orders, o.symbol = symbol →
        o.status ≠ "Working" ∧ o.status ≠ "Accepted")) ∧
    ((webhookAfterReconcile symbol action data positions orders).2 ≠ [] →
      postReconcileVerify symbol positions orders = VerifyOutcome.proceed) := by
  constructor
  · unfold postReconcileVerify
    split_ifs with h1 h2
    · constructor
      · intro hcontr
        exact hcontr.elim
      · rintro ⟨hpos, -⟩
        exact absurd ((notFlatFor_eq_nil_iff symbol positions).2 hpos) h1
    · constructor
      · intro hcontr
        exact hcontr.elim
      · rintro ⟨-, hord⟩
        exact absurd ((openOrdersFor_eq_nil_iff symbol orders).2 hord) h2
    · constructor
      · intro _
        exact ⟨(notFlatFor_eq_nil_iff symbol positions).1 (not_ne_iff.mp h1),
               (openOrdersFor_eq_nil_iff symbol orders).1 (not_ne_iff.mp h2)⟩
      · intro _
        rfl
  · intro hne
    unfold webhookAfterReconcile at hne
    cases hv : postReconcileVerify symbol positions orders with
    | proceed => rfl
    | skippedNotFlat =>
        rw [hv] at hne
        simp at hne
    | skippedOpenOrders =>
        rw [hv] at hne
        simp at hne

/-- Witness for C3: with a flat position listing and only a terminal order
in the book, the main_fixed handler proceeds. -/
theorem reconcile_verify_witness :
    postReconcileVerify "NQM5" [⟨"NQM5", 0⟩] [⟨5, "NQM5", "Filled", 0⟩] =
      VerifyOutcome.proceed :=
  (reconcile_verify_dichotomy "NQM5" "Buy" alertLongA
      [⟨"NQM5", 0⟩] [⟨5, "NQM5", "Filled", 0⟩]).1.2
    ⟨by decide, by decide⟩

/-- A resting order for the instrument that never clears. -/
def stuckOrder : Order := ⟨10, "NQM5", "Working", 0⟩

/-- Counterexample for C3: the enhanced_main webhook waits for the book to
clear, the wait times out (its poll still shows a Working order for the
instrument), and the handler nevertheless submits the new bracket orders —
orders are placed while the instrument is not verified flat, an outcome
the claim rules out. -/
theorem enhanced_places_orders_after_timeout :
    enhancedWebhookReconcileRegion "NQM5" "Buy" alertLongA [[stuckOrder]] =
      (false, buildOrderPlan "Buy" alertLongA) ∧
    buildOrderPlan "Buy" alertLongA ≠ [] := by
  constructor
  · rfl
  · decide

/-- max_retries of the cancel loop in src/main.py line 93. -/
def MAX_CANCEL_RETRIES : ℕ := 8

/-- The fixed half-second backoff slept between cancel attempts
(src/main.py line 110). -/
def CANCEL_RETRY_BACKOFF_SECONDS : ℚ := 1 / 2

/-- Orders the cancel loop targets (src/main.py line 99): every order for
the symbol whose status is not Filled, Cancelled or Rejected — whatever its
other fields, in particular whichever bracket it belongs to. -/
def nonTerminalFor (symbol : String) (orders : List Order) : List Order :=
  orders.filter fun o =>
    o.symbol == symbol &&
      !(o.status == "Filled" || o.status == "Cancelled" || o.status == "Rejected")

/-- The retry loop of cancel_all_orders in src/main.py lines 92-110:
at attempt k the GET returns listings k; the loop breaks when a listing
shows no open order, posts a cancel for every open order with a truthy id
otherwise, sleeps half a second, and moves to the next attempt until the
fuel (max_retries) runs out. Returns the cancel requests posted, the
backoffs slept, and the number of listings the loop consumed. -/
def cancelLoopGo (symbol : String) (listings : ℕ → List Order) :
    ℕ → ℕ → List ℕ × List ℚ × ℕ
  | k, 0 => ([], [], k)
  | k, fuel + 1 =>
      if nonTerminalFor symbol (listings k) = [] then ([], [], k + 1)
      else
        ((((nonTerminalFor symbol (listings k)).filter fun o => o.id != 0).map
            fun o => o.id) ++ (cancelLoopGo symbol listings (k + 1) fuel).1,
         CANCEL_RETRY_BACKOFF_SECONDS :: (cancelLoopGo symbol listings (k + 1) fuel).2.1,
         (cancelLoopGo symbol listings (k + 1) fuel).2.2)

/-- What a call of cancel_all_orders did: cancel requests posted, backoffs
slept, listings consumed by the loop, and the non-terminal orders the
final check still found (these are logged; the function returns normally
either way). -/
structure CancelAllResult where
  requests : List ℕ
  backoffs : List ℚ
  loopPolls : ℕ
  remaining : List Order
deriving DecidableEq

/-- cancel_all_orders of src/main.py lines 86-117 (identical in
src/enhanced_main.py lines 39-70): the bounded retry loop followed by a
final listing whose leftover open orders are only logged — no error is
raised on exhaustion. -/
def cancel_all_orders (symbol : String) (listings : ℕ → List Order) : CancelAllResult :=
  ⟨(cancelLoopGo symbol listings 0 MAX_CANCEL_RETRIES).1,
   (cancelLoopGo symbol listings 0 MAX_CANCEL_RETRIES).2.1,
   (cancelLoopGo symbol listings 0 MAX_CANCEL_RETRIES).2.2,
   nonTerminalFor symbol (listings (cancelLoopGo symbol listings 0 MAX_CANCEL_RETRIES).2.2)⟩

lemma cancelLoopGo_spec (symbol : String) (listings : ℕ → List Order) :
    ∀ (fuel k : ℕ),
      (cancelLoopGo symbol listings k fuel).2.2 ≤ k + fuel ∧
      (∀ j, k ≤ j → j < (cancelLoopGo symbol listings k fuel).2.2 →
        ∀ o ∈ nonTerminalFor symbol (listings j), o.id ≠ 0 →
          o.id ∈ (cancelLoopGo symbol listings k fuel).1) ∧
      (∀ b ∈ (cancelLoopGo symbol listings k fuel).2.1,
        b = CANCEL_RETRY_BACKOFF_SECONDS) := by
  intro fuel
  induction fuel with
  | zero =>
      intro k
      refine ⟨by simp [cancelLoopGo], ?_, ?_⟩
      · intro j hkj hjlt
        simp [cancelLoopGo] at hjlt
        omega
      · intro b hb
        simp [cancelLoopGo] at hb
  | succ n ih =>
      intro k
      by_cases hopen : nonTerminalFor symbol (listings k) = []
      · refine ⟨?_, ?_, ?_⟩
        · simp [cancelLoopGo, hopen]
        · intro j hkj hjlt
          simp [cancelLoopGo, hopen] at hjlt
          intro o ho
          have : j = k := by omega
          rw [this] at ho
          rw [hopen] at ho
          simp at ho
        · intro b hb
          simp [cancelLoopGo, hopen] at hb
      · refine ⟨?_, ?_, ?_⟩
        · simp only [cancelLoopGo, if_neg hopen]
          have := (ih (k + 1)).1
          omega
        · intro j hkj hjlt o ho hid
          simp only [cancelLoopGo, if_neg hopen] at hjlt ⊢
          rcases Nat.lt_or_ge j (k + 1) with hj | hj
          · have hjk : j = k := by omega
            subst hjk
            refine List.mem_append.2 (Or.inl ?_)
            refine List.mem_map.2 ⟨o, ?_, rfl⟩
            refine List.mem_filter.2 ⟨ho, ?_⟩
            simpa using hid
          · refine List.mem_append.2 (Or.inr ?_)
            exact (ih (k + 1)).2.1 j hj hjlt o ho hid
        · intro b hb
          simp only [cancelLoopGo, if_neg hopen] at hb
          rcases List.mem_cons.1 hb with hb2 | hb2
          · exact hb2
          · exact (ih (k + 1)).2.2 b hb2

/-- C5: the cancel loop of cancel_all_orders posts a cancel for every
listed order of the instrument that is not in a terminal status
(Filled/Cancelled/Rejected) and has a truthy id, whatever bracket the
order belongs to, at every attempt it reaches; it re-lists between
attempts, never consumes more than the 8-attempt budget, sleeps the fixed
half-second backoff between attempts, and on exhaustion reports the
leftover orders of a final listing instead of raising. -/
theorem cancel_all_orders_covers_and_is_bounded
    (symbol : String) (listings : ℕ → List Order) :
    (∀ k, k < (cancel_all_orders symbol listings).loopPolls →
      ∀ o ∈ nonTerminalFor symbol (listings k), o.id ≠ 0 →
        o.id ∈ (cancel_all_orders symbol listings).requests) ∧
    (cancel_all_orders symbol listings).loopPolls ≤ MAX_CANCEL_RETRIES ∧
    (∀ b ∈ (cancel_all_orders symbol listings).backoffs,
      b = CANCEL_RETRY_BACKOFF_SECONDS) ∧
    (cancel_all_orders symbol listings).remaining =
      nonTerminalFor symbol (listings (cancel_all_orders symbol listings).loopPolls) := by
  have hspec := cancelLoopGo_spec symbol listings MAX_CANCEL_RETRIES 0
  refine ⟨?_, ?_, ?_, rfl⟩
  · intro k hk o ho hid
    exact hspec.2.1 k (Nat.zero_le k) hk o ho hid
  · simpa using hspec.1
  · exact hspec.2.2

/-- Target of the concrete cancel scenario: one working order, id 7,
belonging to some other bracket (tag 3). -/
def strayOrder : Order := ⟨7, "NQM5", "Working", 3⟩

/-- Listings for the concrete cancel scenario: the first GET finds the
stray working order, every later GET finds a clean book. -/
def listingsCex : ℕ → List Order := fun k => if k = 0 then [strayOrder] else []

/-- Witness for C5: in the concrete scenario the loop reaches attempt 0
and posts a cancel for the stray order. -/
theorem cancel_all_orders_witness :
    7 ∈ (cancel_all_orders "NQM5" listingsCex).requests :=
  (cancel_all_orders_covers_and_is_bounded "NQM5" listingsCex).1 0 (by decide)
    strayOrder (by decide) (by decide)

/-- Loop-carried state of monitor_all_orders in src/main.py lines 283-429:
entry_filled and stop_placed flags plus the order_tracking dict. -/
structure MonStateM where
  entryFilled : Bool
  stopPlaced : Bool
  tracking : Tracking
deriving DecidableEq

/-- max_monitoring_time of src/main.py line 291: one hour. -/
def MAX_MONITORING_TIME_SECONDS : ℚ := 3600

/-- The status test of src/main.py (status and status.lower() == filled):
a missing status never matches. -/
def statusFilledLower (st : Option String) : Bool :=
  match st with
  | some v => strToLower v == "filled"
  | none => false

/-- Environment of one iteration of the src/main.py monitor: either the
polling pass completes — with the broker status answers, the outcome of an
OSO placement should one happen, and the wall-clock elapsed time at the
ceiling check — or some call inside the iteration raises and the except
branch only logs and sleeps, leaving the state unchanged and skipping the
ceiling check (the elapsed time at which that happens is recorded but
never read by the code). -/
inductive TickInputM where
  | ok (statusOf : ℕ → Option String) (osoOk : Bool) (elapsed : ℚ)
  | err (elapsed : ℚ)

/-- Result of one iteration of the src/main.py monitor. -/
inductive TickResultM where
  | exitM (r : ExitReason)
  | contM (s : MonStateM)
deriving DecidableEq

/-- Outcome of processing the ENTRY item in src/main.py lines 325-366: on
the first observed ENTRY fill, when stop data with a T1 price is at hand,
the OSO bracket is placed; stop_placed records whether the placement
succeeded. The tracking dict is not touched (the OSO legs are never added
to it). -/
structure EntryPhaseM where
  entryFilled : Bool
  stopPlaced : Bool
  effects : List Effect
  activeEntry : Bool
deriving DecidableEq

/-- ENTRY item of the per-iteration for-loop of src/main.py. -/
def entryPhaseMain (stopData : Option StopDataMain) (s : MonStateM)
    (statusOf : ℕ → Option String) (osoOk : Bool) : EntryPhaseM :=
  match s.tracking.entry with
  | none => ⟨s.entryFilled, s.stopPlaced, [], false⟩
  | some eid =>
      if statusFilledLower (statusOf eid) then
        if s.entryFilled then ⟨s.entryFilled, s.stopPlaced, [], false⟩
        else
          match stopData with
          | some d =>
              if d.t1.isSome then ⟨true, osoOk, [Effect.placeOSO d], false⟩
              else ⟨true, s.stopPlaced, [], false⟩
          | none => ⟨true, s.stopPlaced, [], false⟩
      else if statusWorking (statusOf eid) then ⟨s.entryFilled, s.stopPlaced, [], true⟩
      else ⟨s.entryFilled, s.stopPlaced, [], false⟩

/-- End of an iteration of the src/main.py monitor, lines 413-424: first
the ceiling check — return once the elapsed time exceeds
max_monitoring_time — then return if no tracked order is active, else
sleep and continue. -/
def monitorEndMain (s : MonStateM) (ep : EntryPhaseM) (activeTp activeStop : Bool)
    (elapsed : ℚ) : List Effect × TickResultM :=
  if elapsed > MAX_MONITORING_TIME_SECONDS then
    (ep.effects, TickResultM.exitM ExitReason.timedOut)
  else if ep.activeEntry || activeTp || activeStop then
    (ep.effects, TickResultM.contM ⟨ep.entryFilled, ep.stopPlaced, s.tracking⟩)
  else (ep.effects, TickResultM.exitM ExitReason.noActive)

/-- STOP item of the per-iteration for-loop of src/main.py lines 369-386:
a filled STOP cancels TP1 (when its id is truthy) and returns — with no
entry_filled guard in this variant. -/
def monitorStopPhaseMain (s : MonStateM) (statusOf : ℕ → Option String)
    (ep : EntryPhaseM) (activeTp : Bool) (elapsed : ℚ) : List Effect × TickResultM :=
  match s.tracking.stop with
  | some sid =>
      if statusFilledLower (statusOf sid) then
        (ep.effects ++
          (if truthyId s.tracking.tp1 then [Effect.cancel (s.tracking.tp1.getD 0)] else []),
         TickResultM.exitM ExitReason.stopFilledExit)
      else monitorEndMain s ep activeTp (statusWorking (statusOf sid)) elapsed
  | none => monitorEndMain s ep activeTp false elapsed

/-- One full iteration of the while-loop of monitor_all_orders in
src/main.py lines 303-429, items in insertion order ENTRY, TP1, STOP; a
filled TP1 cancels the tracked STOP (when truthy) and returns, again with
no entry_filled guard. An err iteration models the except branch: log,
sleep, continue unchanged. -/
def monitorTickMainOk (stopData : Option StopDataMain) (s : MonStateM)
    (statusOf : ℕ → Option String) (osoOk : Bool) (elapsed : ℚ) :
    List Effect × TickResultM :=
  match s.tracking.tp1 with
  | some tid =>
      if statusFilledLower (statusOf tid) then
        ((entryPhaseMain stopData s statusOf osoOk).effects ++
          (if truthyId s.tracking.stop then [Effect.cancel (s.tracking.stop.getD 0)]
           else []),
         TickResultM.exitM ExitReason.tpFilledExit)
      else monitorStopPhaseMain s statusOf (entryPhaseMain stopData s statusOf osoOk)
             (statusWorking (statusOf tid)) elapsed
  | none => monitorStopPhaseMain s statusOf (entryPhaseMain stopData s statusOf osoOk)
              false elapsed

/-- Dispatch over the iteration environment: the except branch leaves
state and effects untouched. -/
def monitorTickMain (stopData : Option StopDataMain) (s : MonStateM) :
    TickInputM → List Effect × TickResultM
  | TickInputM.err _ => ([], TickResultM.contM s)
  | TickInputM.ok statusOf osoOk elapsed =>
      monitorTickMainOk stopData s statusOf osoOk elapsed

/-- Result of running the src/main.py monitor loop against a finite trace. -/
inductive RunResultM where
  | exitedM (r : ExitReason) (effects : List Effect)
  | outOfTicksM (s : MonStateM) (effects : List Effect)
deriving DecidableEq

/-- The while-loop of monitor_all_orders of src/main.py over a finite trace
of iteration environments. -/
def monitorRunMain (stopData : Option StopDataMain) :
    MonStateM → List TickInputM → RunResultM
  | s, [] => RunResultM.outOfTicksM s []
  | s, t :: ts =>
      match monitorTickMain stopData s t with
      | (effs, TickResultM.exitM r) => RunResultM.exitedM r effs
      | (effs, TickResultM.contM s2) =>
          match monitorRunMain stopData s2 ts with
          | RunResultM.exitedM r effs2 => RunResultM.exitedM r (effs ++ effs2)
          | RunResultM.outOfTicksM s3 effs2 => RunResultM.outOfTicksM s3 (effs ++ effs2)

lemma monitorEndMain_cont (s : MonStateM) (ep : EntryPhaseM) (aT aS : Bool)
    (elapsed : ℚ) (effs : List Effect) (s2 : MonStateM)
    (h : monitorEndMain s ep aT aS elapsed = (effs, TickResultM.contM s2)) :
    elapsed ≤ MAX_MONITORING_TIME_SECONDS := by
  unfold monitorEndMain at h
  split_ifs at h with h1 h2
  · simp at h
  · exact not_lt.mp h1
  · simp at h

lemma monitorStopPhaseMain_cont (s : MonStateM) (statusOf : ℕ → Option String)
    (ep : EntryPhaseM) (aT : Bool) (elapsed : ℚ) (effs : List Effect) (s2 : MonStateM)
    (h : monitorStopPhaseMain s statusOf ep aT elapsed = (effs, TickResultM.contM s2)) :
    elapsed ≤ MAX_MONITORING_TIME_SECONDS := by
  unfold monitorStopPhaseMain at h
  split at h
  · split at h
    · simp at h
    · exact monitorEndMain_cont _ _ _ _ _ _ _ h
  · exact monitorEndMain_cont _ _ _ _ _ _ _ h

lemma statusWorking_not_filledLower (st : Option String)
    (h : statusWorking st = true) : statusFilledLower st = false := by
  unfold statusWorking at h
  rcases Bool.or_eq_true_iff.mp h with h2 | h2
  · have : st = some "Working" := by simpa using h2
    rw [this]
    rfl
  · have : st = some "Accepted" := by simpa using h2
    rw [this]
    rfl

lemma entryPhaseMain_active (stopData : Option StopDataMain) (s : MonStateM)
    (statusOf : ℕ → Option String) (osoOk : Bool) (eid : ℕ)
    (he : s.tracking.entry = some eid) (hw : statusWorking (statusOf eid) = true) :
    (entryPhaseMain stopData s statusOf osoOk).activeEntry = true := by
  unfold entryPhaseMain
  rw [he]
  simp [statusWorking_not_filledLower _ hw, hw]

lemma monitorEndMain_cont_of (s : MonStateM) (ep : EntryPhaseM) (aT aS : Bool)
    (elapsed : ℚ) (hle : elapsed ≤ MAX_MONITORING_TIME_SECONDS)
    (hor : (ep.activeEntry || aT || aS) = true) :
    monitorEndMain s ep aT aS elapsed =
      (ep.effects, TickResultM.contM ⟨ep.entryFilled, ep.stopPlaced, s.tracking⟩) := by
  unfold monitorEndMain
  rw [if_neg (not_lt.mpr hle), if_pos hor]

lemma monitorTickMainOk_cont (stopData : Option StopDataMain) (s : MonStateM)
    (statusOf : ℕ → Option String) (osoOk : Bool) (elapsed : ℚ)
    (effs : List Effect) (s2 : MonStateM)
    (h : monitorTickMainOk stopData s statusOf osoOk elapsed =
      (effs, TickResultM.contM s2)) :
    elapsed ≤ MAX_MONITORING_TIME_SECONDS := by
  unfold monitorTickMainOk at h
  split at h
  · split at h
    · simp at h
    · exact monitorStopPhaseMain_cont _ _ _ _ _ _ _ h
  · exact monitorStopPhaseMain_cont _ _ _ _ _ _ _ h

/-- C7 (amended): the one-hour ceiling of the src/main.py monitor is
enforced exactly on the iterations that complete their polling pass: such
an iteration continues the loop only when the elapsed time is within the
ceiling, while an iteration that raises is retried with the ceiling check
skipped — so only broker errors can keep the loop alive past the ceiling
(see the counterexample); and below the ceiling an iteration that observes
no exit-leg fill keeps polling whenever some tracked order is still
Working or Accepted. -/
theorem monitor_ceiling_and_error_retries
    (stopData : Option StopDataMain) (s : MonStateM)
    (statusOf : ℕ → Option String) (osoOk : Bool) (elapsed : ℚ) :
    (∀ effs s2,
      monitorTickMain stopData s (TickInputM.ok statusOf osoOk elapsed) =
        (effs, TickResultM.contM s2) →
      elapsed ≤ MAX_MONITORING_TIME_SECONDS) ∧
    (∀ e2, monitorTickMain stopData s (TickInputM.err e2) =
      ([], TickResultM.contM s)) ∧
    (elapsed ≤ MAX_MONITORING_TIME_SECONDS →
      (∀ tid, s.tracking.tp1 = some tid → statusFilledLower (statusOf tid) = false) →
      (∀ sid, s.tracking.stop = some sid → statusFilledLower (statusOf sid) = false) →
      (∃ oid, (s.tracking.entry = some oid ∨ s.tracking.tp1 = some oid ∨
          s.tracking.stop = some oid) ∧ statusWorking (statusOf oid) = true) →
      ∃ effs s2,
        monitorTickMain stopData s (TickInputM.ok statusOf osoOk elapsed) =
          (effs, TickResultM.contM s2)) := by
  refine ⟨?_, ?_, ?_⟩
  · intro effs s2 h
    exact monitorTickMainOk_cont stopData s statusOf osoOk elapsed effs s2 h
  · intro e2
    rfl
  · intro hle htp hst hex
    obtain ⟨oid, hcase, hw⟩ := hex
    show ∃ effs s2, monitorTickMainOk stopData s statusOf osoOk elapsed =
      (effs, TickResultM.contM s2)
    unfold monitorTickMainOk
    split
    · rename_i tid htp1
      rw [htp tid htp1, if_neg Bool.false_ne_true]
      unfold monitorStopPhaseMain
      split
      · rename_i sid hst1
        rw [hst sid hst1, if_neg Bool.false_ne_true]
        refine ⟨_, _, monitorEndMain_cont_of _ _ _ _ _ hle ?_⟩
        rcases hcase with hco | hco | hco
        · rw [entryPhaseMain_active stopData s statusOf osoOk oid hco hw]
          simp
        · have hoid : tid = oid := Option.some.inj (htp1 ▸ hco)
          rw [← hoid] at hw
          rw [hw]
          simp
        · have hoid : sid = oid := Option.some.inj (hst1 ▸ hco)
          rw [← hoid] at hw
          rw [hw]
          simp
      · rename_i hst1
        refine ⟨_, _, monitorEndMain_cont_of _ _ _ _ _ hle ?_⟩
        rcases hcase with hco | hco | hco
        · rw [entryPhaseMain_active stopData s statusOf osoOk oid hco hw]
          simp
        · have hoid : tid = oid := Option.some.inj (htp1 ▸ hco)
          rw [← hoid] at hw
          rw [hw]
          simp
        · rw [hst1] at hco
          exact Option.noConfusion hco
    · rename_i htp1
      unfold monitorStopPhaseMain
      split
      · rename_i sid hst1
        rw [hst sid hst1, if_neg Bool.false_ne_true]
        refine ⟨_, _, monitorEndMain_cont_of _ _ _ _ _ hle ?_⟩
        rcases hcase with hco | hco | hco
        · rw [entryPhaseMain_active stopData s statusOf osoOk oid hco hw]
          simp
        · rw [htp1] at hco
          exact Option.noConfusion hco
        · have hoid : sid = oid := Option.some.inj (hst1 ▸ hco)
          rw [← hoid] at hw
          rw [hw]
          simp
      · rename_i hst1
        refine ⟨_, _, monitorEndMain_cont_of _ _ _ _ _ hle ?_⟩
        rcases hcase with hco | hco | hco
        · rw [entryPhaseMain_active stopData s statusOf osoOk oid hco hw]
          simp
        · rw [htp1] at hco
          exact Option.noConfusion hco
        · rw [hst1] at hco
          exact Option.noConfusion hco

/-- Monitor state for the timeout scenarios: ENTRY (id 1) and TP1 (id 2)
tracked, no fill observed yet. -/
def monStuck : MonStateM := ⟨false, false, ⟨some 1, some 2, none⟩⟩

/-- Counterexample for C7: three successive iterations of the src/main.py
monitor raise (the status GET fails each time) at elapsed times of 4000,
5000 and 6000 seconds — all far beyond the 3600-second ceiling. The except
branch only logs and sleeps, the ceiling check is never reached, and after
all three iterations the monitor is still looping: the loop does not stop
once elapsed time exceeds the configured maximum. -/
theorem monitor_polls_past_ceiling_on_errors :
    monitorRunMain none monStuck
      [TickInputM.err 4000, TickInputM.err 5000, TickInputM.err 6000] =
      RunResultM.outOfTicksM monStuck [] ∧
    MAX_MONITORING_TIME_SECONDS < 4000 := by
  constructor
  · rfl
  · norm_num [MAX_MONITORING_TIME_SECONDS]

/-- Witness for C7: a completed polling pass at 100 seconds with a working
ENTRY order continues the loop, and the ceiling bound follows; an ok
iteration at 5000 seconds with the same statuses stops with timedOut. -/
theorem monitor_ceiling_witness :
    (100 : ℚ) ≤ MAX_MONITORING_TIME_SECONDS ∧
    monitorTickMain none monStuck
      (TickInputM.ok (fun _ => some "Working") false 5000) =
      ([], TickResultM.exitM ExitReason.timedOut) := by
  constructor
  · exact (monitor_ceiling_and_error_retries none monStuck
      (fun _ => some "Working") false 100).1 []
      ⟨false, false, ⟨some 1, some 2, none⟩⟩ rfl
  · rfl

/-- Responses a broker HTTP call can produce in the retry models: a
success, or an HTTP error with its status code and the optional
Retry-After header value. -/
inductive HttpResp where
  | success
  | httpError (code : ℕ) (retryAfter : Option ℕ)
deriving DecidableEq

/-- max_retries of TradovateClient.authenticate, src/tradovate_api.py
line 36. -/
def AUTH_MAX_RETRIES : ℕ := 5

/-- backoff_factor of TradovateClient.authenticate, src/tradovate_api.py
line 37. -/
def AUTH_BACKOFF_FACTOR : ℕ := 2

/-- Outcome of TradovateClient.authenticate together with the sleeps its
429 handling performed: authenticated, failed on a non-429 HTTP error
(HTTPException with that code), or budget exhausted (HTTPException 429
after max_retries attempts). -/
inductive AuthOutcome where
  | okAuth (sleeps : List ℕ)
  | httpFail (code : ℕ) (sleeps : List ℕ)
  | exhausted (sleeps : List ℕ)
deriving DecidableEq


/-- Prepends one performed sleep to an authentication outcome. -/
def consSleep (t : ℕ) : AuthOutcome → AuthOutcome
  | AuthOutcome.okAuth s => AuthOutcome.okAuth (t :: s)
  | AuthOutcome.httpFail c s => AuthOutcome.httpFail c (t :: s)
  | AuthOutcome.exhausted s => AuthOutcome.exhausted (t :: s)

/-- The retry loop of TradovateClient.authenticate, src/tradovate_api.py
lines 40-101: on 429 sleep for the Retry-After header value — or
backoff_factor times (attempt+1) when the header is absent — and try
again; on any other HTTP error raise at once; raise the 429 exhaustion
error when the attempt budget runs out. -/
def authGo (responses : ℕ → HttpResp) : ℕ → ℕ → AuthOutcome
  | _, 0 => AuthOutcome.exhausted []
  | attempt, fuel + 1 =>
      match responses attempt with
      | HttpResp.success => AuthOutcome.okAuth []
      | HttpResp.httpError code ra =>
          if code = 429 then
            consSleep (ra.getD (AUTH_BACKOFF_FACTOR * (attempt + 1)))
              (authGo responses (attempt + 1) fuel)
          else AuthOutcome.httpFail code []

/-- TradovateClient.authenticate of src/tradovate_api.py, run against the
sequence of broker responses (responses k answers attempt k). -/
def authenticate (responses : ℕ → HttpResp) : AuthOutcome :=
  authGo responses 0 AUTH_MAX_RETRIES

/-- The sleeps performed during authentication, in order. -/
def sleepsOf : AuthOutcome → List ℕ
  | AuthOutcome.okAuth s => s
  | AuthOutcome.httpFail _ s => s
  | AuthOutcome.exhausted s => s

/-- place_order of src/tradovate_api.py lines 104-145: one POST; any
HTTPStatusError — a 429 included — is re-raised immediately as an
HTTPException carrying the response status code. There is no retry loop
around order placement. -/
def place_order (resp : HttpResp) : Except ℕ Unit :=
  match resp with
  | HttpResp.success => Except.ok ()
  | HttpResp.httpError code _ => Except.error code

lemma sleepsOf_consSleep (t : ℕ) (o : AuthOutcome) :
    sleepsOf (consSleep t o) = t :: sleepsOf o := by
  cases o <;> rfl

lemma authGo_429_step (responses : ℕ → HttpResp) (attempt fuel : ℕ) (ra : Option ℕ)
    (h : responses attempt = HttpResp.httpError 429 ra) :
    authGo responses attempt (fuel + 1) =
      consSleep (ra.getD (AUTH_BACKOFF_FACTOR * (attempt + 1)))
        (authGo responses (attempt + 1) fuel) := by
  conv_lhs => unfold authGo
  rw [h]
  rfl

lemma authGo_sleeps_length (responses : ℕ → HttpResp) :
    ∀ (fuel attempt : ℕ), (sleepsOf (authGo responses attempt fuel)).length ≤ fuel := by
  intro fuel
  induction fuel with
  | zero =>
      intro attempt
      simp [authGo, sleepsOf]
  | succ n ih =>
      intro attempt
      cases h : responses attempt with
      | success =>
          conv_lhs => unfold authGo
          rw [h]
          simp [sleepsOf]
      | httpError code ra =>
          by_cases hc : code = 429
          · subst hc
            rw [authGo_429_step responses attempt n ra h, sleepsOf_consSleep]
            have := ih (attempt + 1)
            simp
            omega
          · conv_lhs => unfold authGo
            rw [h]
            simp [hc, sleepsOf]

lemma authGo_all_429_exhausted (responses : ℕ → HttpResp) :
    ∀ (fuel attempt : ℕ),
      (∀ k, attempt ≤ k → k < attempt + fuel →
        ∃ ra, responses k = HttpResp.httpError 429 ra) →
      ∃ sleeps, authGo responses attempt fuel = AuthOutcome.exhausted sleeps := by
  intro fuel
  induction fuel with
  | zero =>
      intro attempt _
      exact ⟨[], rfl⟩
  | succ n ih =>
      intro attempt hall
      obtain ⟨ra, hra⟩ := hall attempt (le_refl attempt) (by omega)
      obtain ⟨sleeps, hs⟩ := ih (attempt + 1) (by
        intro k hk1 hk2
        exact hall k (by omega) (by omega))
      refine ⟨ra.getD (AUTH_BACKOFF_FACTOR * (attempt + 1)) :: sleeps, ?_⟩
      rw [authGo_429_step responses attempt n ra hra, hs]
      rfl

/-- C8 (amended): authentication handles 429 by sleeping the
server-supplied Retry-After (or the backoff-factor fallback) and retrying,
succeeds as soon as an attempt succeeds, sleeps at most five times and
fails with the 429 exhaustion error when every attempt in the budget is
rate-limited; order placement, by contrast, propagates a 429 immediately
as a failure without waiting or retrying. -/
theorem auth_retries_429_but_place_order_does_not
    (responses : ℕ → HttpResp) :
    (∀ t, responses 0 = HttpResp.httpError 429 (some t) →
      (sleepsOf (authenticate responses)).head? = some t) ∧
    (∀ t, responses 0 = HttpResp.httpError 429 (some t) →
      responses 1 = HttpResp.success →
      authenticate responses = AuthOutcome.okAuth [t]) ∧
    (sleepsOf (authenticate responses)).length ≤ AUTH_MAX_RETRIES ∧
    ((∀ k, k < AUTH_MAX_RETRIES → ∃ ra, responses k = HttpResp.httpError 429 ra) →
      ∃ sleeps, authenticate responses = AuthOutcome.exhausted sleeps) ∧
    (∀ code ra, place_order (HttpResp.httpError code ra) = Except.error code) := by
  refine ⟨?_, ?_, ?_, ?_, ?_⟩
  · intro t h0
    unfold authenticate
    rw [show AUTH_MAX_RETRIES = 4 + 1 from rfl]
    rw [authGo_429_step responses 0 4 (some t) h0, sleepsOf_consSleep]
    rfl
  · intro t h0 h1
    unfold authenticate
    rw [show AUTH_MAX_RETRIES = 4 + 1 from rfl]
    rw [authGo_429_step responses 0 4 (some t) h0]
    have h2 : authGo responses 1 4 = AuthOutcome.okAuth [] := by
      conv_lhs => unfold authGo
      rw [h1]
    rw [h2]
    rfl
  · exact authGo_sleeps_length responses AUTH_MAX_RETRIES 0
  · intro hall
    refine authGo_all_429_exhausted responses AUTH_MAX_RETRIES 0 ?_
    intro k hk1 hk2
    exact hall k (by omega)
  · intro code ra
    rfl

/-- Counterexample for C8: the broker answers an order placement with 429
and Retry-After 2; place_order fails at once with that code — it does not
wait two seconds and retry within a budget as the claim asserts. -/
theorem place_order_429_not_retried :
    place_order (HttpResp.httpError 429 (some 2)) = Except.error 429 := rfl

/-- Response trace for the authentication retry scenario: rate-limited
with Retry-After 2 on the first attempt, success on the second. -/
def authRespCex : ℕ → HttpResp :=
  fun k => if k = 0 then HttpResp.httpError 429 (some 2) else HttpResp.success

/-- Witness for C8: under that trace authentication sleeps exactly the two
advertised seconds and succeeds on the second attempt. -/
theorem auth_retry_witness :
    authenticate authRespCex = AuthOutcome.okAuth [2] :=
  (auth_retries_429_but_place_order_does_not authRespCex).2.1 2 rfl rfl

/-- Possible success payloads of TradovateClient.cancel_order. -/
inductive CancelOutcome where
  | cancelled
  | alreadyHandled
deriving DecidableEq

/-- cancel_order of src/tradovate_api.py lines 279-321 (same handling in
src/tradovate_api_optimized.py lines 210-245): POST order/cancelorder; a
404 answer is converted into a success payload (status already_handled)
and no exception, while every other HTTP error is re-raised as an
HTTPException carrying the response status code. -/
def cancel_order (resp : HttpResp) : Except ℕ CancelOutcome :=
  match resp with
  | HttpResp.success => Except.ok CancelOutcome.cancelled
  | HttpResp.httpError code _ =>
      if code = 404 then Except.ok CancelOutcome.alreadyHandled
      else Except.error code

/-- C9: a 404 on cancel is returned as a success (the order is treated as
already terminal) with no error raised, and every non-404 HTTP error on
cancel is propagated as a failure with its status code. -/
theorem cancel_404_success_other_errors_propagate :
    (∀ ra, cancel_order (HttpResp.httpError 404 ra) =
      Except.ok CancelOutcome.alreadyHandled) ∧
    (∀ code ra, code ≠ 404 →
      cancel_order (HttpResp.httpError code ra) = Except.error code) := by
  constructor
  · intro ra
    rfl
  · intro code ra h
    unfold cancel_order
    simp [h]

/-- Witness for C9: a 404 cancel succeeds, a 500 cancel fails. -/
theorem cancel_404_witness :
    cancel_order (HttpResp.httpError 404 none) =
      Except.ok CancelOutcome.alreadyHandled ∧
    cancel_order (HttpResp.httpError 500 none) = Except.error 500 :=
  ⟨cancel_404_success_other_errors_propagate.1 none,
   cancel_404_success_other_errors_propagate.2 500 none (by decide)⟩
